import Mathlib

/-!
Verification development for the barberEasy repository: a barbershop
booking and queue-management application. The client logic lives in
`src/components/CustomerDashboard.tsx` and `src/components/BarberDashboard.tsx`;
authorization is enforced by row-level security policies declared in
`supabase/migrations/20251105034427_create_barbershop_schema.sql`.

The embedding models the appointments table as a list of records, the
Supabase update calls as filtered row updates guarded by the row-level
security policies from the migration, the reads — including the
queue-position read inside `createAppointment` — as filtered by the
SELECT policy for the acting user, and the client functions
(`createAppointment`, `cancelAppointment`, `updateAppointmentStatus`)
as pure state transformers over that table.
-/

namespace BarberEasy

/-- Appointment status, from the CHECK constraint on `appointments.status`:
`status IN ('waiting', 'in_progress', 'completed', 'cancelled')`. -/
inductive Status where
  | waiting
  | in_progress
  | completed
  | cancelled
deriving DecidableEq, Repr

/-- One row of the `appointments` table (migration lines 182-195; the
`Appointment` type of `src/lib/supabase.ts`). Identifiers and timestamps
are modelled as natural numbers. -/
structure Appointment where
  id : Nat
  shop_id : Nat
  customer_id : Nat
  barber_id : Option Nat
  status : Status
  queue_position : Nat
  service_type : String
  notes : Option String
  created_at : Nat
  started_at : Option Nat
  completed_at : Option Nat
deriving DecidableEq, Repr

/-- One row of the `shop_barbers` association table (migration lines 149-155). -/
structure ShopBarber where
  shop_id : Nat
  barber_id : Nat
deriving DecidableEq, Repr

/-- Membership test of the `shop_barbers` table, as used by the SELECT,
UPDATE and DELETE policies on `appointments` (migration lines 199-260):
`EXISTS (SELECT 1 FROM shop_barbers WHERE shop_id = ... AND barber_id = auth.uid())`. -/
def isBarberOf (sbs : List ShopBarber) (uid shopId : Nat) : Bool :=
  sbs.any (fun sb => decide (sb.shop_id = shopId ∧ sb.barber_id = uid))

/-- The SELECT policy on `appointments` (migration lines 199-210,
"Customers can view own appointments"): a reader sees a row only when
they are its customer, its assigned barber, or a barber associated with
its shop. Every read of the table, including the queue-position read in
`createAppointment`, is filtered by this predicate. -/
def selectVisible (sbs : List ShopBarber) (uid : Nat) (a : Appointment) : Bool :=
  decide (uid = a.customer_id) || decide (a.barber_id = some uid)
    || isBarberOf sbs uid a.shop_id

/-- The set of `waiting` appointments at a shop, as the spec words the
position-assignment rule (spec section 4.1) and as used here to observe
final states. The deployed read differs: it is filtered by the SELECT
policy (see `waitingVisibleAt`). -/
def waitingAt (db : List Appointment) (shopId : Nat) : List Appointment :=
  db.filter (fun a => decide (a.shop_id = shopId ∧ a.status = Status.waiting))

/-- The rows actually returned by the queue query of `createAppointment`
(CustomerDashboard.tsx lines 43-50) when run by user `uid`: appointments
of the given shop whose status is `waiting`, restricted by the SELECT
row-level-security policy to the rows visible to `uid` — for an acting
customer, their own rows. -/
def waitingVisibleAt (sbs : List ShopBarber) (uid : Nat)
    (db : List Appointment) (shopId : Nat) : List Appointment :=
  db.filter (fun a =>
    selectVisible sbs uid a
      && decide (a.shop_id = shopId ∧ a.status = Status.waiting))

/-- Maximum of a list of naturals, or `none` for the empty list. -/
def maxOfList : List Nat → Option Nat
  | [] => none
  | p :: ps =>
    match maxOfList ps with
    | none => some p
    | some m => some (max p m)

/-- The `queue_position` of the row returned by
`.order(queue_position, descending).limit(1).maybeSingle()`
(CustomerDashboard.tsx lines 43-50) for reader `uid`: the maximum
`queue_position` among the waiting appointments at the shop that the
SELECT policy lets `uid` see, or `none` when there is none. -/
def maxWaitingPos (sbs : List ShopBarber) (uid : Nat) (db : List Appointment)
    (shopId : Nat) : Option Nat :=
  maxOfList ((waitingVisibleAt sbs uid db shopId).map Appointment.queue_position)

/-- `const nextPosition = queueData ? queueData.queue_position + 1 : 1;`
(CustomerDashboard.tsx line 52), for reader `uid`. -/
def nextPosition (sbs : List ShopBarber) (uid : Nat) (db : List Appointment)
    (shopId : Nat) : Nat :=
  match maxWaitingPos sbs uid db shopId with
  | some m => m + 1
  | none => 1

/-- Error taxonomy of the spec (section 7): `InvalidInput`, `ShopNotFound`,
`NotOwner`/`NotAuthorized`, `InvalidState`. The client code never produces
these structured kinds; the type exists so claims phrased in terms of the
taxonomy can be stated against the code. -/
inductive QMError where
  | InvalidInput
  | ShopNotFound
  | NotOwner
  | NotAuthorized
  | InvalidState
deriving DecidableEq, Repr

/-- Outcome of a `createAppointment` call as the client realizes it:
either a row was inserted, or the guard
`if (!selectedShop || !serviceType) return;` returned silently, or the
catch branch showed a generic alert. The structured `err` outcome is in
the type only so spec-level claims about error kinds can be stated; the
code has no path producing it. -/
inductive CreateResult where
  | created (a : Appointment)
  | silentReturn
  | failureAlert
  | err (e : QMError)
deriving DecidableEq, Repr

/-- `createAppointment` (CustomerDashboard.tsx lines 38-76): guard on
`selectedShop` and non-empty `serviceType`, read the maximum waiting
`queue_position` for the shop — a read executed as the acting customer
`customerId` (`auth.uid()`, which the INSERT policy requires to equal
`customer_id`), hence filtered by the SELECT policy to the rows visible
to that customer — then insert a new `waiting` row with position one
greater (or 1). `notes || undefined` stores no note when the notes input
is the empty string. `newId` and `now` stand for the database-generated
id and `created_at` default. Returns the new table and the call
outcome. -/
def createAppointment (sbs : List ShopBarber) (db : List Appointment)
    (selectedShop : Option Nat) (customerId : Nat) (serviceType : String)
    (notes : String) (newId now : Nat) : List Appointment × CreateResult :=
  match selectedShop with
  | none => (db, CreateResult.silentReturn)
  | some shopId =>
    if serviceType = "" then (db, CreateResult.silentReturn)
    else
      let pos := nextPosition sbs customerId db shopId
      let a : Appointment :=
        { id := newId
          shop_id := shopId
          customer_id := customerId
          barber_id := none
          status := Status.waiting
          queue_position := pos
          service_type := serviceType
          notes := if notes = "" then none else some notes
          created_at := now
          started_at := none
          completed_at := none }
      (db ++ [a], CreateResult.created a)

/-- USING side of the two permissive UPDATE policies on `appointments`
(migration lines 224-249): the row is visible to the update when the actor
owns it (`auth.uid() = customer_id`) or is a barber associated with its
shop. A row failing both is simply not matched by the update. -/
def updateUsing (sbs : List ShopBarber) (uid : Nat) (a : Appointment) : Bool :=
  decide (uid = a.customer_id) || isBarberOf sbs uid a.shop_id

/-- WITH CHECK side of the two permissive UPDATE policies on `appointments`
(migration lines 224-249): the new row must either keep the actor as owner
and have status `cancelled`, or the actor must be a barber of its shop.
An update whose new row fails both raises a row-level security error. -/
def updateCheck (sbs : List ShopBarber) (uid : Nat) (a : Appointment) : Bool :=
  (decide (uid = a.customer_id) && decide (a.status = Status.cancelled))
    || isBarberOf sbs uid a.shop_id

/-- Outcome of a Supabase `update ... eq(id, ...)` call: success carrying
the number of rows updated (matching zero rows is still a success), or a
row-level security violation, which aborts the statement leaving the
table unchanged. -/
inductive UpdateResult where
  | ok (updatedCount : Nat)
  | rlsError
deriving DecidableEq, Repr

/-- Per-row effect of an update filtered by `eq(id, id)` under row-level
security: rows matching the filter and the USING predicate are rewritten
by the payload `f`; a rewritten row failing every WITH CHECK predicate is
a violation. Returns the row, whether it was updated, and whether it
violated a check. -/
def updRow (sbs : List ShopBarber) (uid : Nat) (f : Appointment → Appointment)
    (id : Nat) (a : Appointment) : Appointment × Bool × Bool :=
  if a.id = id ∧ updateUsing sbs uid a = true then
    let b := f a
    if updateCheck sbs uid b then (b, true, false) else (a, false, true)
  else (a, false, false)

/-- A Supabase `.update(payload).eq(id, id)` statement against the
`appointments` table: apply `updRow` to every row; if any matched row
violates the WITH CHECK predicates the whole statement fails and the
table is unchanged, otherwise the rewritten table and the updated-row
count are returned. -/
def updateWhereId (sbs : List ShopBarber) (uid : Nat)
    (f : Appointment → Appointment) (id : Nat) (db : List Appointment) :
    List Appointment × UpdateResult :=
  let rows := db.map (updRow sbs uid f id)
  if rows.any (fun r => r.2.2) then (db, UpdateResult.rlsError)
  else (rows.map (fun r => r.1), UpdateResult.ok (rows.countP (fun r => r.2.1)))

/-- Payload of `cancelAppointment` (CustomerDashboard.tsx lines 78-87):
`update({ status: cancelled })`. Only the status column is written. -/
def cancelPayload (a : Appointment) : Appointment :=
  { a with status := Status.cancelled }

/-- `cancelAppointment` (CustomerDashboard.tsx lines 78-87): set the status
of the row with the given id to `cancelled`, under row-level security for
the acting user `uid`. No check of the current status is made. -/
def cancelAppointment (sbs : List ShopBarber) (uid id : Nat)
    (db : List Appointment) : List Appointment × UpdateResult :=
  updateWhereId sbs uid cancelPayload id db

/-- Payload built by `updateAppointmentStatus` (BarberDashboard.tsx lines
79-86): `{ status }`, plus `started_at = now` and `barber_id = uid` when
the target status is `in_progress`, plus `completed_at = now` when it is
`completed`. Both call sites pass an empty `updates` object, so the
payload is exactly this. -/
def statusPayload (uid now : Nat) (target : Status) (a : Appointment) :
    Appointment :=
  match target with
  | Status.in_progress =>
    { a with status := target, started_at := some now, barber_id := some uid }
  | Status.completed =>
    { a with status := target, completed_at := some now }
  | _ => { a with status := target }

/-- `updateAppointmentStatus` (BarberDashboard.tsx lines 76-100): apply the
status payload to the row with the given id, under row-level security for
the acting barber `uid`. The update is filtered only by `eq(id, id)`: it
is not conditional on the current status of the row. -/
def updateAppointmentStatus (sbs : List ShopBarber) (uid id : Nat)
    (target : Status) (now : Nat) (db : List Appointment) :
    List Appointment × UpdateResult :=
  updateWhereId sbs uid (statusPayload uid now target) id db

/-- The start-service action of the barber dashboard (line 240):
`updateAppointmentStatus(appointment.id, in_progress)`. -/
def startService (sbs : List ShopBarber) (uid id now : Nat)
    (db : List Appointment) : List Appointment × UpdateResult :=
  updateAppointmentStatus sbs uid id Status.in_progress now db

/-- The complete-service action of the barber dashboard (line 190):
`updateAppointmentStatus(appointment.id, completed)`. -/
def completeService (sbs : List ShopBarber) (uid id now : Nat)
    (db : List Appointment) : List Appointment × UpdateResult :=
  updateAppointmentStatus sbs uid id Status.completed now db

/-- Phase of one in-flight `createAppointment` call, split at its two
network round trips (CustomerDashboard.tsx lines 43-63): first the
read of the maximum waiting `queue_position`, then the insert of the new
row with the position computed from that read. -/
inductive ClientPhase where
  | toRead
  | toInsert (pos : Nat)
  | finished
deriving DecidableEq, Repr

/-- The waiting row inserted by `createAppointment` for a given computed
position (CustomerDashboard.tsx lines 54-63), with empty notes. -/
def insertedRow (shopId custId : Nat) (serviceType : String) (newId now pos : Nat) :
    Appointment :=
  { id := newId
    shop_id := shopId
    customer_id := custId
    barber_id := none
    status := Status.waiting
    queue_position := pos
    service_type := serviceType
    notes := none
    created_at := now
    started_at := none
    completed_at := none }

/-- One step of an in-flight `createAppointment` call by customer
`custId`: the read step records `nextPosition` of the current table as
seen by that customer under the SELECT policy; the insert step appends
the row with the recorded position. -/
def clientStep (sbs : List ShopBarber) (shopId custId : Nat)
    (serviceType : String) (newId now : Nat) (ph : ClientPhase)
    (db : List Appointment) : ClientPhase × List Appointment :=
  match ph with
  | ClientPhase.toRead =>
    (ClientPhase.toInsert (nextPosition sbs custId db shopId), db)
  | ClientPhase.toInsert pos =>
    (ClientPhase.finished, db ++ [insertedRow shopId custId serviceType newId now pos])
  | ClientPhase.finished => (ClientPhase.finished, db)

/-- Interleaved execution of two concurrent `createAppointment` calls at
the same shop: the schedule says at each step which client (false = first,
true = second) performs its next round trip. Returns the final table. -/
def runRace (sbs : List ShopBarber) (shopId cust1 cust2 : Nat)
    (serviceType : String) (id1 id2 now : Nat) : List Bool → ClientPhase →
    ClientPhase → List Appointment → List Appointment
  | [], _, _, db => db
  | false :: rest, ph1, ph2, db =>
    let s := clientStep sbs shopId cust1 serviceType id1 now ph1 db
    runRace sbs shopId cust1 cust2 serviceType id1 id2 now rest s.1 ph2 s.2
  | true :: rest, ph1, ph2, db =>
    let s := clientStep sbs shopId cust2 serviceType id2 now ph2 db
    runRace sbs shopId cust1 cust2 serviceType id1 id2 now rest ph1 s.1 s.2

/-- The `queue_position` of the appointment created by a call outcome,
when one was created. -/
def createdPos : CreateResult → Option Nat
  | CreateResult.created a => some a.queue_position
  | _ => none

/-- A concrete waiting appointment (id 10, shop 1, customer 5) used to
evaluate the operations at specific inputs. -/
def sampleWaiting : Appointment := insertedRow 1 5 "haircut" 10 0 1

/-- A concrete in-progress appointment (id 12, shop 1, customer 5,
barber 9). -/
def sampleInProgress : Appointment :=
  { sampleWaiting with
      id := 12, status := Status.in_progress, started_at := some 1,
      barber_id := some 9 }

/-- A concrete completed appointment (id 1, shop 1, customer 5,
barber 9). -/
def sampleCompleted : Appointment :=
  { id := 1
    shop_id := 1
    customer_id := 5
    barber_id := some 9
    status := Status.completed
    queue_position := 1
    service_type := "haircut"
    notes := none
    created_at := 0
    started_at := some 1
    completed_at := some 2 }

/-! Helper lemmas about the position read. -/

theorem mem_waitingAt {db : List Appointment} {s : Nat} {a : Appointment} :
    a ∈ waitingAt db s ↔ a ∈ db ∧ a.shop_id = s ∧ a.status = Status.waiting := by
  simp [waitingAt, List.mem_filter]

theorem mem_waitingVisibleAt {sbs : List ShopBarber} {uid : Nat}
    {db : List Appointment} {s : Nat} {a : Appointment} :
    a ∈ waitingVisibleAt sbs uid db s ↔
      a ∈ db ∧ selectVisible sbs uid a = true ∧
        a.shop_id = s ∧ a.status = Status.waiting := by
  simp [waitingVisibleAt, List.mem_filter, and_assoc]

theorem maxOfList_eq_none {l : List Nat} (h : maxOfList l = none) : l = [] := by
  cases l with
  | nil => rfl
  | cons p ps =>
    exfalso
    cases hm : maxOfList ps <;> simp [maxOfList, hm] at h

theorem maxOfList_spec {l : List Nat} {m : Nat} (h : maxOfList l = some m) :
    m ∈ l ∧ ∀ x ∈ l, x ≤ m := by
  induction l generalizing m with
  | nil => simp [maxOfList] at h
  | cons p ps ih =>
    cases hm : maxOfList ps with
    | none =>
      have hnil : ps = [] := maxOfList_eq_none hm
      subst hnil
      simp [maxOfList] at h
      subst h
      simp
    | some m2 =>
      simp [maxOfList, hm] at h
      obtain ⟨hmem, hbound⟩ := ih hm
      subst h
      constructor
      · rcases le_total p m2 with hle | hle
        · rw [max_eq_right hle]
          exact List.mem_cons_of_mem _ hmem
        · rw [max_eq_left hle]
          exact List.mem_cons_self _ _
      · intro x hx
        rcases List.mem_cons.mp hx with hx | hx
        · subst hx; exact le_max_left _ _
        · exact le_trans (hbound x hx) (le_max_right _ _)

theorem nextPosition_gt_visible {sbs : List ShopBarber} {uid : Nat}
    {db : List Appointment} {s : Nat} {a : Appointment}
    (ha : a ∈ waitingVisibleAt sbs uid db s) :
    a.queue_position < nextPosition sbs uid db s := by
  cases hm : maxWaitingPos sbs uid db s with
  | none =>
    exfalso
    have hnil : (waitingVisibleAt sbs uid db s).map Appointment.queue_position = [] :=
      maxOfList_eq_none (by simpa [maxWaitingPos] using hm)
    rw [List.map_eq_nil_iff] at hnil
    simp [hnil] at ha
  | some m =>
    have hspec := maxOfList_spec
      (l := (waitingVisibleAt sbs uid db s).map Appointment.queue_position)
      (by simpa [maxWaitingPos] using hm)
    have hmem : a.queue_position ∈
        (waitingVisibleAt sbs uid db s).map Appointment.queue_position :=
      List.mem_map_of_mem _ ha
    have hle := hspec.2 _ hmem
    simp [nextPosition, hm]
    omega

/-! Helper lemmas about filtered updates under row-level security. -/

theorem updateUsing_owner (sbs : List ShopBarber) (a : Appointment) :
    updateUsing sbs a.customer_id a = true := by
  simp [updateUsing]

theorem isBarberOf_self (s b : Nat) : isBarberOf [ShopBarber.mk s b] b s = true := by
  simp [isBarberOf]

theorem updateWhereId_singleton_hit (sbs : List ShopBarber) (uid : Nat)
    (f : Appointment → Appointment) (a : Appointment)
    (hu : updateUsing sbs uid a = true) (hc : updateCheck sbs uid (f a) = true) :
    updateWhereId sbs uid f a.id [a] = ([f a], UpdateResult.ok 1) := by
  simp [updateWhereId, updRow, hu, hc]

theorem updateWhereId_singleton_miss (sbs : List ShopBarber) (uid : Nat)
    (f : Appointment → Appointment) (a : Appointment)
    (hu : updateUsing sbs uid a = false) :
    updateWhereId sbs uid f a.id [a] = ([a], UpdateResult.ok 0) := by
  simp [updateWhereId, updRow, hu]

/-! Claim theorems. -/

/-- C1: the claim requires the new appointment's `queue_position` to be
one greater than the maximum among the waiting appointments at the shop.
The deployed program fails this: the position read runs as the acting
customer and is filtered by the SELECT policy to that customer's own
rows. At the failing input — shop 1 holds customer 5's waiting
appointment at position 4, and customer 6 books — customer 6's read sees
no waiting row, so the new appointment gets position 1, while the
shop-wide maximum is 4 and the claim requires position 5. -/
theorem createAppointment_rls_read_bug :
    createdPos (createAppointment [] [insertedRow 1 5 "haircut" 10 0 4]
      (some 1) 6 "shave" "" 11 2).2 = some 1 ∧
    maxOfList ((waitingAt [insertedRow 1 5 "haircut" 10 0 4] 1).map
      Appointment.queue_position) = some 4 ∧
    (1 : Nat) ≠ 4 + 1 := by
  decide

/-- C4 counterexample: customer 5 books twice at shop 1, receiving
positions 1 and 2 (their own rows are visible to their reads); they then
cancel the second appointment (id 11), and their third booking is
assigned position 2 again, because the position read maximizes only over
appointments that are still `waiting`. Position 2 is assigned twice
among ever-created appointments, once after the appointment that held it
was cancelled. -/
theorem queue_position_reuse_counterexample :
    createdPos (createAppointment [] [] (some 1) 5 "haircut" "" 10 0).2 = some 1 ∧
    createdPos (createAppointment []
      (createAppointment [] [] (some 1) 5 "haircut" "" 10 0).1
      (some 1) 5 "haircut" "" 11 1).2 = some 2 ∧
    (cancelAppointment [] 5 11
      (createAppointment []
        (createAppointment [] [] (some 1) 5 "haircut" "" 10 0).1
        (some 1) 5 "haircut" "" 11 1).1).2 = UpdateResult.ok 1 ∧
    createdPos (createAppointment []
      (cancelAppointment [] 5 11
        (createAppointment []
          (createAppointment [] [] (some 1) 5 "haircut" "" 10 0).1
          (some 1) 5 "haircut" "" 11 1).1).1
      (some 1) 5 "haircut" "" 12 2).2 = some 2 := by
  decide

/-- C4 amended: a created appointment's `queue_position` is strictly
greater than the position of every `waiting` appointment at the shop
that the acting customer's read can see under the SELECT policy (their
own rows, absent a barber association); so a customer's own positions
increase while their waiting rows remain, but a position is assigned
again once the row holding the visible maximum has been cancelled (or
otherwise left `waiting`), and positions also collide across customers,
whose rows are mutually invisible. -/
theorem created_position_exceeds_visible_waiting (sbs : List ShopBarber)
    (db : List Appointment) (s c : Nat) (sv notes : String) (i t : Nat)
    (a : Appointment)
    (ha : (createAppointment sbs db (some s) c sv notes i t).2 =
      CreateResult.created a)
    (w : Appointment) (hw : w ∈ waitingVisibleAt sbs c db s) :
    w.queue_position < a.queue_position := by
  by_cases hsv : sv = ""
  · simp [createAppointment, hsv] at ha
  · simp only [createAppointment, if_neg hsv, CreateResult.created.injEq] at ha
    have : a.queue_position = nextPosition sbs c db s := by
      rw [← ha]
    rw [this]
    exact nextPosition_gt_visible hw

/-- Witness for C4 at a concrete input: customer 5, holding a waiting
appointment at position 4, books again and the created appointment holds
position 5. -/
theorem created_position_exceeds_visible_waiting_witness :
    (insertedRow 1 5 "haircut" 10 0 4).queue_position <
      (insertedRow 1 5 "shave" 11 2 5).queue_position :=
  created_position_exceeds_visible_waiting [] [insertedRow 1 5 "haircut" 10 0 4]
    1 5 "shave" "" 11 2 (insertedRow 1 5 "shave" 11 2 5) (by decide)
    (insertedRow 1 5 "haircut" 10 0 4) (by decide)

/-- C5 counterexample: starting from an empty table, two
`createAppointment` calls at shop 1 by customers 5 and 6 produce a
waiting set with two distinct appointments (ids 10 and 11) both at
`queue_position` 1 — under the racy interleaving read-1, read-2,
insert-1, insert-2, and also under the fully serialized schedule, since
customer 6's read is filtered by the SELECT policy to their own rows and
cannot see customer 5's insert. -/
theorem race_duplicate_position_counterexample :
    (waitingAt (runRace [] 1 5 6 "haircut" 10 11 0 [false, true, false, true]
        ClientPhase.toRead ClientPhase.toRead []) 1).map
      Appointment.queue_position = [1, 1] ∧
    (waitingAt (runRace [] 1 5 6 "haircut" 10 11 0 [false, true, false, true]
        ClientPhase.toRead ClientPhase.toRead []) 1).map
      Appointment.id = [10, 11] ∧
    (waitingAt (runRace [] 1 5 6 "haircut" 10 11 0 [false, false, true, true]
        ClientPhase.toRead ClientPhase.toRead []) 1).map
      Appointment.queue_position = [1, 1] := by
  decide

/-- C5 amended: the two-round-trip allocation guarantees distinct
positions neither under interleaving nor under serialization across
customers: the racy interleaving produces duplicates, and even fully
serialized calls by distinct customers produce duplicates, because each
customer's read sees only their own rows under the SELECT policy. Only
serialized calls by the same customer yield strictly increasing,
distinct positions: when one customer completes both round trips before
their own second call starts, the second position is strictly greater
than the first, from any starting table. -/
theorem race_serialized_same_customer_distinct (sbs : List ShopBarber)
    (db : List Appointment) (s c : Nat) (sv : String) (i1 i2 now : Nat) :
    ∃ p1 p2, runRace sbs s c c sv i1 i2 now [false, false, true, true]
        ClientPhase.toRead ClientPhase.toRead db =
      db ++ [insertedRow s c sv i1 now p1] ++ [insertedRow s c sv i2 now p2] ∧
      p1 < p2 := by
  refine ⟨nextPosition sbs c db s,
    nextPosition sbs c (db ++ [insertedRow s c sv i1 now (nextPosition sbs c db s)]) s,
    ?_, ?_⟩
  · simp [runRace, clientStep]
  · apply nextPosition_gt_visible
      (a := insertedRow s c sv i1 now (nextPosition sbs c db s))
    rw [mem_waitingVisibleAt]
    refine ⟨List.mem_append_right _ (List.mem_singleton_self _), ?_, rfl, rfl⟩
    simp [selectVisible, insertedRow]

/-- C2 counterexample: the owning customer (5) cancels an appointment
whose status is already `completed`: the update succeeds (one row
updated, no invalid-state error) and the stored record changes, its
status overwritten to `cancelled`. -/
theorem cancel_completed_counterexample :
    cancelAppointment [] 5 1 [sampleCompleted] =
      ([{ sampleCompleted with status := Status.cancelled }], UpdateResult.ok 1) ∧
    sampleCompleted.status ≠ Status.cancelled := by
  decide

/-- C2 amended: no transition operation checks the current status. On a
terminal (`completed` or `cancelled`) appointment, a cancel by the owner
and a start or complete by a barber of its shop all succeed with one row
updated, overwriting the stored status, instead of failing with an
invalid-state error. -/
theorem terminal_transitions_overwrite (a : Appointment) (b now : Nat)
    (hterm : a.status = Status.completed ∨ a.status = Status.cancelled) :
    cancelAppointment [] a.customer_id a.id [a] =
      ([{ a with status := Status.cancelled }], UpdateResult.ok 1) ∧
    startService [ShopBarber.mk a.shop_id b] b a.id now [a] =
      ([{ a with
            status := Status.in_progress
            started_at := some now
            barber_id := some b }], UpdateResult.ok 1) ∧
    completeService [ShopBarber.mk a.shop_id b] b a.id now [a] =
      ([{ a with status := Status.completed, completed_at := some now }],
        UpdateResult.ok 1) := by
  refine ⟨?_, ?_, ?_⟩
  · exact updateWhereId_singleton_hit _ _ _ _ (updateUsing_owner _ _)
      (by simp [updateCheck, cancelPayload])
  · exact updateWhereId_singleton_hit _ _ _ _
      (by simp [updateUsing, isBarberOf])
      (by simp [updateCheck, statusPayload, isBarberOf])
  · exact updateWhereId_singleton_hit _ _ _ _
      (by simp [updateUsing, isBarberOf])
      (by simp [updateCheck, statusPayload, isBarberOf])

/-- Witness for C2 at a concrete input: the completed appointment
`sampleCompleted`, owner 5, barber 9, time 7. -/
theorem terminal_transitions_overwrite_witness :
    cancelAppointment [] sampleCompleted.customer_id sampleCompleted.id
        [sampleCompleted] =
      ([{ sampleCompleted with status := Status.cancelled }], UpdateResult.ok 1) ∧
    startService [ShopBarber.mk sampleCompleted.shop_id 9] 9 sampleCompleted.id 7
        [sampleCompleted] =
      ([{ sampleCompleted with
            status := Status.in_progress
            started_at := some 7
            barber_id := some 9 }], UpdateResult.ok 1) ∧
    completeService [ShopBarber.mk sampleCompleted.shop_id 9] 9 sampleCompleted.id 7
        [sampleCompleted] =
      ([{ sampleCompleted with
            status := Status.completed
            completed_at := some 7 }], UpdateResult.ok 1) :=
  terminal_transitions_overwrite sampleCompleted 9 7 (Or.inl rfl)

/-- C3 counterexample: barber 9 of shop 1 applies `startService` to an
appointment whose current status is `completed`, not `waiting`: the
update succeeds (one row updated) and overwrites the row; and applies
`completeService` to an appointment whose current status is `waiting`,
not `in_progress`: it succeeds as well. The update is filtered only by
id, not by current status, so neither precondition is checked. -/
theorem start_complete_ignore_status_counterexample :
    startService [ShopBarber.mk 1 9] 9 1 7 [sampleCompleted] =
      ([{ sampleCompleted with
            status := Status.in_progress
            started_at := some 7
            barber_id := some 9 }], UpdateResult.ok 1) ∧
    sampleCompleted.status ≠ Status.waiting ∧
    completeService [ShopBarber.mk 1 9] 9 10 7 [sampleWaiting] =
      ([{ sampleWaiting with
            status := Status.completed
            completed_at := some 7 }], UpdateResult.ok 1) ∧
    sampleWaiting.status ≠ Status.in_progress := by
  decide

/-- C3 amended: `updateAppointmentStatus` (hence `startService` and
`completeService`) is not conditional on the current status of the row:
for an acting barber associated with the shop, the update succeeds and
overwrites the row whatever its current status and whatever the target
status. -/
theorem updateAppointmentStatus_unconditional (a : Appointment) (b now : Nat)
    (target : Status) :
    updateAppointmentStatus [ShopBarber.mk a.shop_id b] b a.id target now [a] =
      ([statusPayload b now target a], UpdateResult.ok 1) := by
  apply updateWhereId_singleton_hit
  · simp [updateUsing, isBarberOf]
  · cases target <;> simp [updateCheck, statusPayload, isBarberOf]

/-- C6 counterexample: barber 9, associated with shop 1 but not the owner
of customer 5's waiting appointment, performs the cancelling update and
succeeds (one row updated) — cancellation is not owner-only. Moreover a
plain stranger (user 8, no association) attempting the cancel gets a
zero-row success, not a `NotOwner` error. -/
theorem cancel_not_owner_only_counterexample :
    cancelAppointment [ShopBarber.mk 1 9] 9 10 [sampleWaiting] =
      ([{ sampleWaiting with status := Status.cancelled }], UpdateResult.ok 1) ∧
    (9 : Nat) ≠ sampleWaiting.customer_id ∧
    cancelAppointment [] 8 10 [sampleWaiting] =
      ([sampleWaiting], UpdateResult.ok 0) := by
  decide

/-- C6 amended: for an actor who is neither the owner of the appointment
nor a barber associated with its shop, the cancelling update matches no
row under the row-level security policies: the stored record is
unchanged and the call reports success with zero rows updated — a silent
no-op, not a `NotOwner` error. Barbers associated with the shop are an
exception: they can perform the cancelling update (counterexample). -/
theorem cancel_by_stranger_silent_noop (a : Appointment) (uid : Nat)
    (sbs : List ShopBarber) (hown : ¬ uid = a.customer_id)
    (hbar : isBarberOf sbs uid a.shop_id = false) :
    cancelAppointment sbs uid a.id [a] = ([a], UpdateResult.ok 0) := by
  apply updateWhereId_singleton_miss
  simp [updateUsing, hown, hbar]

/-- Witness for C6 at a concrete input: user 8, not the owner (5) and not
an associated barber of shop 1, attempts to cancel `sampleWaiting`. -/
theorem cancel_by_stranger_silent_noop_witness :
    cancelAppointment [] 8 sampleWaiting.id [sampleWaiting] =
      ([sampleWaiting], UpdateResult.ok 0) :=
  cancel_by_stranger_silent_noop sampleWaiting 8 [] (by decide) (by decide)

/-- C7 counterexample: a call with an empty `service_type` (customer 7,
shop 1) and a call with no selected shop both leave the table unchanged
and return silently from the guard: no appointment is created, but no
`InvalidInput` or `ShopNotFound` error is returned either. -/
theorem create_missing_input_counterexample :
    createAppointment [] [] (some 1) 7 "" "" 0 0 = ([], CreateResult.silentReturn) ∧
    createAppointment [] [] none 7 "haircut" "" 0 0 = ([], CreateResult.silentReturn) ∧
    CreateResult.silentReturn ≠ CreateResult.err QMError.InvalidInput ∧
    CreateResult.silentReturn ≠ CreateResult.err QMError.ShopNotFound := by
  decide

/-- C7 amended: admission does require a selected shop and a non-empty
`service_type`, and a call missing either creates no appointment; but the
guard returns silently — no error of kind `InvalidInput` or
`ShopNotFound` (nor any other outcome) is surfaced to the caller. -/
theorem createAppointment_guard_silent (sbs : List ShopBarber)
    (db : List Appointment) (sel : Option Nat) (c : Nat) (sv notes : String)
    (i t : Nat) (h : sel = none ∨ sv = "") :
    createAppointment sbs db sel c sv notes i t = (db, CreateResult.silentReturn) := by
  rcases h with h | h
  · subst h; rfl
  · subst h
    cases sel <;> simp [createAppointment]

/-- Witness for C7 at a concrete input: an empty service type with shop 1
selected. -/
theorem createAppointment_guard_silent_witness :
    createAppointment [] [] (some 1) 7 "" "" 0 0 = ([], CreateResult.silentReturn) :=
  createAppointment_guard_silent [] [] (some 1) 7 "" "" 0 0 (Or.inr rfl)

/-- C8: when a barber associated with the shop starts a `waiting`
appointment, the updated row has status `in_progress`, `started_at` set
to the current time and `barber_id` set to the acting barber; when a
barber completes an `in_progress` appointment, the updated row has
status `completed` and `completed_at` set to the current time. -/
theorem start_complete_set_fields (a : Appointment) (b now : Nat)
    (hw : a.status = Status.waiting) (a2 : Appointment) (b2 now2 : Nat)
    (hp : a2.status = Status.in_progress) :
    startService [ShopBarber.mk a.shop_id b] b a.id now [a] =
      ([{ a with
            status := Status.in_progress
            started_at := some now
            barber_id := some b }], UpdateResult.ok 1) ∧
    completeService [ShopBarber.mk a2.shop_id b2] b2 a2.id now2 [a2] =
      ([{ a2 with
            status := Status.completed
            completed_at := some now2 }], UpdateResult.ok 1) := by
  constructor
  · exact updateWhereId_singleton_hit _ _ _ _
      (by simp [updateUsing, isBarberOf])
      (by simp [updateCheck, statusPayload, isBarberOf])
  · exact updateWhereId_singleton_hit _ _ _ _
      (by simp [updateUsing, isBarberOf])
      (by simp [updateCheck, statusPayload, isBarberOf])

/-- Witness for C8 at a concrete input: barber 9 starts the waiting
appointment `sampleWaiting` at time 7, and barber 9 completes the
in-progress appointment `sampleInProgress` at time 8. -/
theorem start_complete_set_fields_witness :
    startService [ShopBarber.mk sampleWaiting.shop_id 9] 9 sampleWaiting.id 7
        [sampleWaiting] =
      ([{ sampleWaiting with
            status := Status.in_progress
            started_at := some 7
            barber_id := some 9 }], UpdateResult.ok 1) ∧
    completeService [ShopBarber.mk sampleInProgress.shop_id 9] 9
        sampleInProgress.id 8 [sampleInProgress] =
      ([{ sampleInProgress with
            status := Status.completed
            completed_at := some 8 }], UpdateResult.ok 1) :=
  start_complete_set_fields sampleWaiting 9 7 rfl sampleInProgress 9 8 rfl

/-- C9: a `createAppointment` call whose notes input is the empty string
creates an appointment with no notes value at all (`none`), not an
empty-string note: the insert writes `notes || undefined`. -/
theorem create_empty_notes_no_note (sbs : List ShopBarber)
    (db : List Appointment) (s c : Nat) (sv : String) (i t : Nat)
    (hsv : ¬ sv = "") :
    ∃ a, (createAppointment sbs db (some s) c sv "" i t).2 =
      CreateResult.created a ∧ a.notes = none := by
  simp only [createAppointment, if_neg hsv]
  exact ⟨_, rfl, rfl⟩

/-- Witness for C9 at a concrete input: booking a haircut at shop 1 with
empty notes. -/
theorem create_empty_notes_no_note_witness :
    ∃ a, (createAppointment [] [] (some 1) 5 "haircut" "" 10 0).2 =
      CreateResult.created a ∧ a.notes = none :=
  create_empty_notes_no_note [] [] 1 5 "haircut" 10 0 (by decide)

/-- C10: completing an appointment modifies only the status and
`completed_at` fields: the updated row agrees with the original on
`shop_id`, `customer_id`, `barber_id`, `queue_position`, `service_type`,
`notes`, `created_at` and `started_at`. -/
theorem completeService_frame (a : Appointment) (b now : Nat) :
    ∃ r, completeService [ShopBarber.mk a.shop_id b] b a.id now [a] =
      ([r], UpdateResult.ok 1) ∧
      r.status = Status.completed ∧ r.completed_at = some now ∧
      r.shop_id = a.shop_id ∧ r.customer_id = a.customer_id ∧
      r.barber_id = a.barber_id ∧ r.queue_position = a.queue_position ∧
      r.service_type = a.service_type ∧ r.notes = a.notes ∧
      r.created_at = a.created_at ∧ r.started_at = a.started_at := by
  refine ⟨{ a with status := Status.completed, completed_at := some now },
    ?_, rfl, rfl, rfl, rfl, rfl, rfl, rfl, rfl, rfl, rfl⟩
  exact updateWhereId_singleton_hit _ _ _ _
    (by simp [updateUsing, isBarberOf])
    (by simp [updateCheck, statusPayload, isBarberOf])

end BarberEasy
